import Mathlib

/-!
# Focus search box menu (Blueprint Assist)

A shallow embedding of `SFocusSearchBoxMenu` from
`Plugins/BlueprintAssist/Source/BlueprintAssist/BlueprintAssistWidgets/FocusSearchBoxMenu.cpp`:
the text filter (`OnFilterTextChanged`), the keyboard navigation (`OnKeyDown`),
the highlight bookkeeping (`MarkActiveSuggestion`) and the commit path
(`SelectItem`, `SelectFirstItem`).

Conventions of the embedding:

* `FString` is a list of characters; `TArray<T>` is a `List T`.
* `int32` values are integers; `TArray::Num()` is the list length, so an array
  is taken to hold fewer than `2 ^ 31` elements. The sums of `OnKeyDown`, which
  can leave the `int32` range for such an array, are passed through `wrapInt32`,
  and `%` is the truncating remainder `Int.tmod`.
* `TArray::operator[]` is range checked, so a function that indexes returns an
  `Option` and yields `none` on an index outside the array.
* Calls into the host application (menu dismissal, keyboard focus, list view
  selection, tab flash) are recorded as a list of `Effect`s, in call order.
* Engine string routines the menu calls (`FText::TrimPrecedingAndTrailing`,
  `FString::ParseIntoArray`, `FString::Contains`) are embedded from their engine
  behaviour; the character tables behind them (`FText::IsWhitespace`,
  `TChar::ToUpper`) are a parameter, `Engine`.
-/

namespace FocusSearchBoxMenu

/-! ## Engine strings -/

/-- The engine string type `FString`, as its sequence of characters. -/
abbrev FString := List Char

/-- Character tables of the engine, which the string routines consult:
`FText::IsWhitespace` (used by trimming) and `TChar::ToUpper` (used by the
case-insensitive search `FCString::Stristr`). -/
structure Engine where
  /-- The table `FText::IsWhitespace`. -/
  IsWhitespace : Char → Bool
  /-- The table `TChar::ToUpper`. -/
  ToUpper : Char → Char

/-- A concrete engine for examples: ASCII white space and ASCII case folding. -/
def asciiEngine : Engine where
  IsWhitespace := Char.isWhitespace
  ToUpper := Char.toUpper

/-- The enumeration `ESearchCase::Type`. -/
inductive ESearchCase where
  | CaseSensitive
  | IgnoreCase
  deriving DecidableEq, Repr

/-- The routine `FCString::Strstr(Str, Find)`, reduced to whether an occurrence
exists: try the pattern at the current position, else advance by one. The menu
only searches for terms that `ParseIntoArray` produced, which are never empty. -/
def Strstr : FString → FString → Bool
  | [], Find => Find.isEmpty
  | c :: Str, Find => Find.isPrefixOf (c :: Str) || Strstr Str Find

/-- The routine `FCString::Stristr(Str, Find)`: the same search with both sides
compared through `TChar::ToUpper`. -/
def Stristr (E : Engine) (Str Find : FString) : Bool :=
  Strstr (Str.map E.ToUpper) (Find.map E.ToUpper)

/-- The method `FString::Contains`, which is `Find(SubStr, SearchCase) != INDEX_NONE`.
The engine header `Containers/UnrealString.h` declares it as
`bool Contains(const TCHAR* SubStr, ESearchCase::Type SearchCase = ESearchCase::IgnoreCase,
ESearchDir::Type SearchDir = ESearchDir::FromStart) const`, and `Find` searches with
`FCString::Stristr` under `IgnoreCase` and with `FCString::Strstr` under `CaseSensitive`. -/
def Contains (E : Engine) (Str SubStr : FString) (SearchCase : ESearchCase) : Bool :=
  match SearchCase with
  | ESearchCase.IgnoreCase => Stristr E Str SubStr
  | ESearchCase.CaseSensitive => Strstr Str SubStr

/-- The routine `FText::TrimPrecedingAndTrailing`: skip white space from the
front, then from the back, and keep what lies between. -/
def TrimPrecedingAndTrailing (E : Engine) (InText : FString) : FString :=
  ((InText.dropWhile E.IsWhitespace).reverse.dropWhile E.IsWhitespace).reverse

/-- Loop of `FString::ParseIntoArray` for a one-character delimiter. `Cur` holds
the characters between `Start` and the scan position; at a delimiter the piece
is emitted unless it is empty and `InCullEmpty` is set, and at the end of the
string the remainder is emitted under the same test. -/
def ParseIntoArrayLoop (pchDelim : Char) (InCullEmpty : Bool) : FString → FString → List FString
  | [], Cur => if !InCullEmpty || !Cur.isEmpty then [Cur] else []
  | c :: Rest, Cur =>
    if c = pchDelim then
      if !InCullEmpty || !Cur.isEmpty then Cur :: ParseIntoArrayLoop pchDelim InCullEmpty Rest []
      else ParseIntoArrayLoop pchDelim InCullEmpty Rest []
    else ParseIntoArrayLoop pchDelim InCullEmpty Rest (Cur ++ [c])

/-- The method `FString::ParseIntoArray(OutArray, pchDelim, InCullEmpty)` for a
one-character delimiter: the string is cut at every occurrence of the delimiter
and of nothing else; an empty string yields an empty array. -/
def ParseIntoArray (Str : FString) (pchDelim : Char) (InCullEmpty : Bool) : List FString :=
  if Str.isEmpty then [] else ParseIntoArrayLoop pchDelim InCullEmpty Str []

/-! ## Data model -/

/-- The value `INDEX_NONE`. -/
def INDEX_NONE : Int := -1

/-- Two's complement wrap of an integer into the `int32` range. -/
def wrapInt32 (x : Int) : Int := (x + 2147483648) % 4294967296 - 2147483648

/-- The template `FMath::Clamp<int32>(X, Min, Max)`. -/
def Clamp (X Min Max : Int) : Int :=
  if X < Min then Min else if X < Max then X else Max

/-- The method `TArray::Num()`. -/
def Num {α : Type} (Array : List α) : Int := (Array.length : Int)

/-- A `FSearchBoxStruct`: handles of the search box widget and of its dock tab,
together with what the host answers for this item while the menu is open:
`Widget.IsValid()`, `ToString()` (hint text of the editable text, else the
widget's own text) and `GetTabLabel()`. -/
structure FSearchBoxStruct where
  /-- Handle of the search box widget. -/
  Widget : Nat
  /-- Handle of the owning dock tab. -/
  DockTab : Nat
  /-- Value of `Widget.IsValid()`. -/
  WidgetIsValid : Bool
  /-- Value of `ToString()`. -/
  ToString : FString
  /-- Value of `GetTabLabel()`. -/
  GetTabLabel : FString
  deriving DecidableEq, Repr

/-- A search box widget as `Construct` sees it in the widget tree. -/
structure SearchBoxSnapshot where
  /-- Value of `GetVisibility().IsVisible()`. -/
  IsVisible : Bool
  /-- Value of `IsEnabled()`. -/
  IsEnabled : Bool
  /-- Whether `GetDesiredSize().SizeSquared() > 0`. -/
  HasDesiredSize : Bool
  /-- Whether `GetCachedGeometry().GetAbsoluteSize().SizeSquared() > 0`. -/
  HasAbsoluteSize : Bool
  /-- The item `FSearchBoxStruct(SearchBoxWidget, DockTab)` made for it. -/
  Item : FSearchBoxStruct
  deriving DecidableEq, Repr

/-- A dock tab as `Construct` sees it in the active top level window. -/
structure DockTabSnapshot where
  /-- Value of `DockTab.IsValid()`. -/
  IsValid : Bool
  /-- Whether `GetTabRole() == ETabRole::MajorTab`. -/
  IsMajorTab : Bool
  /-- Value of `IsForeground()`. -/
  IsForeground : Bool
  /-- The `SSearchBox` children of the tab content, in scan order. -/
  SearchBoxes : List SearchBoxSnapshot
  deriving DecidableEq, Repr

/-- Calls into the host application, as they are issued. -/
inductive Effect where
  /-- Call `FSlateApplication::DismissMenuByWidget`. -/
  | DismissMenu
  /-- Call `FSlateApplication::SetKeyboardFocus(Item->Widget, Navigation)`. -/
  | SetKeyboardFocus (Widget : Nat)
  /-- Call `DockTab->FlashTab()`. -/
  | FlashTab (DockTab : Nat)
  /-- Call `FilteredItemsListView->SetSelection`. -/
  | SetSelection (Item : FSearchBoxStruct)
  /-- Call `FilteredItemsListView->RequestScrollIntoView`. -/
  | RequestScrollIntoView (Item : FSearchBoxStruct)
  /-- Call `FilteredItemsListView->ClearSelection`. -/
  | ClearSelection
  /-- Call `FilteredItemsListView->RequestListRefresh`. -/
  | RequestListRefresh
  deriving DecidableEq, Repr

/-- The keys `OnKeyDown` tells apart. -/
inductive FKey where
  | Escape
  | Enter
  | Up
  | Down
  | Other
  deriving DecidableEq, Repr

/-- The result type `FReply`. -/
inductive FReply where
  | Handled
  | Unhandled
  deriving DecidableEq, Repr

/-- The mutable members of `SFocusSearchBoxMenu`. `SelectedItems` is the selection
held by `FilteredItemsListView` (single selection mode). -/
structure SFocusSearchBoxMenu where
  /-- Member `AllItems`. -/
  AllItems : List FSearchBoxStruct
  /-- Member `FilteredItems`. -/
  FilteredItems : List FSearchBoxStruct
  /-- Member `SuggestionIndex`. -/
  SuggestionIndex : Int
  /-- What `FilteredItemsListView->GetSelectedItems` returns. -/
  SelectedItems : List FSearchBoxStruct
  deriving DecidableEq, Repr

/-! ## Operations -/

/-- Scan of `Construct` (lines 32-58): the items of every valid, non major,
foreground tab whose search box is visible, enabled and of non zero size. -/
def ScanItems : List DockTabSnapshot → List FSearchBoxStruct
  | [] => []
  | DockTab :: Tabs =>
    if DockTab.IsValid then
      if DockTab.IsMajorTab then ScanItems Tabs
      else if !DockTab.IsForeground then ScanItems Tabs
      else
        ((DockTab.SearchBoxes.filter fun w =>
            w.IsVisible && w.IsEnabled && w.HasDesiredSize && w.HasAbsoluteSize).map
          fun w => w.Item) ++ ScanItems Tabs
    else ScanItems Tabs

/-- The state `Construct` leaves (lines 23-60). -/
def Construct (DockTabs : List DockTabSnapshot) : SFocusSearchBoxMenu where
  SuggestionIndex := INDEX_NONE
  AllItems := ScanItems DockTabs
  FilteredItems := ScanItems DockTabs
  SelectedItems := []

/-- The text an item is matched against (line 152):
`Item->ToString() + " " + Item->GetTabLabel()`. -/
def SearchText (Item : FSearchBoxStruct) : FString :=
  Item.ToString ++ [' '] ++ Item.GetTabLabel

/-- Inner loop of `OnFilterTextChanged` (lines 155-160): the terms are visited
while `bShowAction` holds. Line 158 calls `SearchText.Contains(FilterTerms[FilterIndex])`
with the substring only, so the search case is the default, `ESearchCase::IgnoreCase`. -/
def MatchTerms (E : Engine) (Text : FString) : List FString → Bool → Bool
  | [], bShowAction => bShowAction
  | Term :: Terms, bShowAction =>
    if bShowAction then
      let bMatchesTerm := Contains E Text Term ESearchCase.IgnoreCase
      MatchTerms E Text Terms (bShowAction && bMatchesTerm)
    else bShowAction

/-- Outer loop of `OnFilterTextChanged` (lines 144-167) over the items not yet
visited, appending to `Filtered`. -/
def FilterLoop (E : Engine) (FilterTerms : List FString) :
    List FSearchBoxStruct → List FSearchBoxStruct → List FSearchBoxStruct
  | [], Filtered => Filtered
  | Item :: Items, Filtered =>
    let bRequiresFiltering : Bool := decide (Num FilterTerms > 0)
    let bShowAction : Bool :=
      if bRequiresFiltering then MatchTerms E (SearchText Item) FilterTerms true else true
    if bShowAction then FilterLoop E FilterTerms Items (Filtered ++ [Item])
    else FilterLoop E FilterTerms Items Filtered

/-- The filter of `OnFilterTextChanged` (lines 141-167): `FilteredItems` is
emptied and refilled from `AllItems`. -/
def FilterItems (E : Engine) (FilterTerms : List FString) (AllItems : List FSearchBoxStruct) :
    List FSearchBoxStruct :=
  FilterLoop E FilterTerms AllItems []

/-- The terms `OnFilterTextChanged` filters with (lines 135-139): the text is
trimmed and parsed with delimiter `TEXT(" ")`, culling empty pieces. -/
def FilterTermsOf (E : Engine) (InFilterText : FString) : List FString :=
  ParseIntoArray (TrimPrecedingAndTrailing E InFilterText) ' ' true

/-- The method `MarkActiveSuggestion` (lines 214-228). -/
def MarkActiveSuggestion (s : SFocusSearchBoxMenu) :
    Option (SFocusSearchBoxMenu × List Effect) :=
  if s.SuggestionIndex ≥ 0 then
    match s.FilteredItems[s.SuggestionIndex.toNat]? with
    | some ItemToSelect =>
      some ({ s with SelectedItems := [ItemToSelect] },
        [Effect.SetSelection ItemToSelect, Effect.RequestScrollIntoView ItemToSelect,
          Effect.FlashTab ItemToSelect.DockTab])
    | none => none
  else
    some ({ s with SelectedItems := [] }, [Effect.ClearSelection])

/-- The method `OnFilterTextChanged` (lines 132-182). -/
def OnFilterTextChanged (E : Engine) (s : SFocusSearchBoxMenu) (InFilterText : FString) :
    Option (SFocusSearchBoxMenu × List Effect) :=
  let FilterTerms := FilterTermsOf E InFilterText
  let s1 : SFocusSearchBoxMenu :=
    { s with FilteredItems := FilterItems E FilterTerms s.AllItems }
  if s1.SuggestionIndex ≥ 0 ∧ Num s1.FilteredItems > 0 then
    let s2 : SFocusSearchBoxMenu := { s1 with
      SuggestionIndex := Clamp s1.SuggestionIndex 0 (Num s1.FilteredItems - 1) }
    match MarkActiveSuggestion s2 with
    | some (s3, Effects) => some (s3, Effect.RequestListRefresh :: Effects)
    | none => none
  else
    some ({ s1 with SuggestionIndex := INDEX_NONE }, [Effect.RequestListRefresh])

/-- The method `SelectItem` (lines 192-201): it changes no member. -/
def SelectItem (Item : FSearchBoxStruct) : List Effect :=
  Effect.DismissMenu ::
    (if Item.WidgetIsValid then [Effect.SetKeyboardFocus Item.Widget, Effect.FlashTab Item.DockTab]
     else [])

/-- The method `SelectFirstItem` (lines 203-212). -/
def SelectFirstItem (s : SFocusSearchBoxMenu) : List Effect × Bool :=
  if Num s.FilteredItems > 0 then
    match s.FilteredItems with
    | Item :: _ => (SelectItem Item, true)
    | [] => ([], false)
  else ([], false)

/-- The method `OnKeyDown` (lines 230-287). -/
def OnKeyDown (s : SFocusSearchBoxMenu) (Key : FKey) :
    Option (SFocusSearchBoxMenu × List Effect × FReply) :=
  let NumItems : Int := Num s.FilteredItems
  if Key = FKey.Escape then
    some (s, [Effect.DismissMenu], FReply.Handled)
  else if Key = FKey.Enter then
    match s.SelectedItems with
    | Item :: _ => some (s, SelectItem Item, FReply.Handled)
    | [] =>
      match SelectFirstItem s with
      | (Effects, true) => some (s, Effects, FReply.Handled)
      | (Effects, false) => some (s, Effects, FReply.Unhandled)
  else if NumItems > 0 then
    let SelectionDelta : Int :=
      if Key = FKey.Up then -1 else if Key = FKey.Down then 1 else 0
    if SelectionDelta ≠ 0 then
      if s.SuggestionIndex = INDEX_NONE then
        let s1 : SFocusSearchBoxMenu := { s with
          SuggestionIndex :=
            (wrapInt32 (wrapInt32 (s.SuggestionIndex + SelectionDelta) + NumItems)).tmod NumItems }
        match MarkActiveSuggestion s1 with
        | some (s2, Effects) => some (s2, Effects, FReply.Handled)
        | none => none
      else
        let s1 : SFocusSearchBoxMenu := { s with
          SuggestionIndex :=
            (wrapInt32 (wrapInt32 (s.SuggestionIndex + SelectionDelta) + NumItems)).tmod NumItems }
        match MarkActiveSuggestion s1 with
        | some (s2, Effects) => some (s2, Effects, FReply.Handled)
        | none => none
    else some (s, [], FReply.Unhandled)
  else some (s, [], FReply.Unhandled)

/-- An input event delivered to the menu. -/
inductive Event where
  | KeyDown (Key : FKey)
  | FilterTextChanged (InFilterText : FString)
  deriving DecidableEq, Repr

/-- Deliver one event; `none` when an array index is out of range. -/
def step (E : Engine) (s : SFocusSearchBoxMenu) : Event → Option SFocusSearchBoxMenu
  | Event.KeyDown Key => (OnKeyDown s Key).map fun r => r.1
  | Event.FilterTextChanged InFilterText => (OnFilterTextChanged E s InFilterText).map fun r => r.1

/-- Deliver a sequence of events in order. -/
def run (E : Engine) (s : SFocusSearchBoxMenu) : List Event → Option SFocusSearchBoxMenu
  | [] => some s
  | e :: es => (step E s e).bind fun s1 => run E s1 es

/-- Press one key `k` times in a row. -/
def pressKey (Key : FKey) : Nat → SFocusSearchBoxMenu → Option SFocusSearchBoxMenu
  | 0, s => some s
  | k + 1, s => (OnKeyDown s Key).bind fun r => pressKey Key k r.1

/-- An item with the given display text and tab label (valid widget). -/
def mkItem (Id : Nat) (Text Label : String) : FSearchBoxStruct where
  Widget := Id
  DockTab := Id
  WidgetIsValid := true
  ToString := Text.toList
  GetTabLabel := Label.toList

/-- A menu state over `Items` with nothing filtered out. -/
def menuOf (Items : List FSearchBoxStruct) (Index : Int) : SFocusSearchBoxMenu where
  AllItems := Items
  FilteredItems := Items
  SuggestionIndex := Index
  SelectedItems := []


/-- Three sample items. -/
def sampleItems : List FSearchBoxStruct :=
  [mkItem 0 "Find" "Graph", mkItem 1 "Search" "Details", mkItem 2 "Filter" "Palette"]

/-- A sample window: one foreground tab with two usable search boxes and one
hidden search box, and one major tab that is skipped. -/
def sampleTabs : List DockTabSnapshot :=
  [{ IsValid := true, IsMajorTab := false, IsForeground := true,
     SearchBoxes :=
      [{ IsVisible := true, IsEnabled := true, HasDesiredSize := true, HasAbsoluteSize := true,
         Item := mkItem 0 "Find" "Graph" },
       { IsVisible := false, IsEnabled := true, HasDesiredSize := true, HasAbsoluteSize := true,
         Item := mkItem 7 "Hidden" "Graph" },
       { IsVisible := true, IsEnabled := true, HasDesiredSize := true, HasAbsoluteSize := true,
         Item := mkItem 1 "Search" "Details" }] },
   { IsValid := true, IsMajorTab := true, IsForeground := true,
     SearchBoxes :=
      [{ IsVisible := true, IsEnabled := true, HasDesiredSize := true, HasAbsoluteSize := true,
         Item := mkItem 2 "Filter" "Palette" }] }]

/-- The test the two loops of `OnFilterTextChanged` compute for one item, in closed
form: every term is found in its search text by `Contains`. -/
def PassesFilter (E : Engine) (FilterTerms : List FString) (Item : FSearchBoxStruct) : Bool :=
  FilterTerms.all fun Term => Contains E (SearchText Item) Term ESearchCase.IgnoreCase

/-! ## Lemmas on the engine strings -/

theorem Strstr_iff_infix (Str Find : FString) : Strstr Str Find = true ↔ Find <:+: Str := by
  induction Str with
  | nil => simp [Strstr]
  | cons c Str ih =>
    simp only [Strstr, Bool.or_eq_true, ih, List.infix_cons_iff]
    rw [ List.isPrefixOf_iff_prefix]

theorem Contains_ignoreCase_iff (E : Engine) (Str SubStr : FString) :
    Contains E Str SubStr ESearchCase.IgnoreCase = true ↔
      SubStr.map E.ToUpper <:+: Str.map E.ToUpper := by
  simp only [Contains, Stristr, Strstr_iff_infix]

theorem Contains_caseSensitive_iff (E : Engine) (Str SubStr : FString) :
    Contains E Str SubStr ESearchCase.CaseSensitive = true ↔ SubStr <:+: Str := by
  simp only [Contains, Strstr_iff_infix]

theorem ParseIntoArrayLoop_eq_splitOnP (d : Char) (Rest Cur : FString) :
    ParseIntoArrayLoop d true Rest Cur =
      ((Rest.splitOnP fun c => c == d).modifyHead fun t => Cur ++ t).filter
        fun t => !t.isEmpty := by
  induction Rest generalizing Cur with
  | nil =>
    cases Cur <;> simp [ParseIntoArrayLoop, List.filter]
  | cons c Rest ih =>
    by_cases h : c = d
    · subst h
      have h0 := ih []
      simp only [List.nil_append] at h0
      have hid : (List.modifyHead (fun t => t) (List.splitOnP (fun x => x == c) Rest)) =
          List.splitOnP (fun x => x == c) Rest := by
        cases List.splitOnP (fun x => x == c) Rest <;> rfl
      rw [hid] at h0
      cases Cur <;> simp [ParseIntoArrayLoop, List.filter, h0]
    · have h1 := ih (Cur ++ [c])
      simp only [ParseIntoArrayLoop, if_neg h, h1, List.splitOnP_cons, beq_iff_eq,
        List.modifyHead_modifyHead]
      congr 2
      funext t
      simp

theorem ParseIntoArrayLoop_mem (d : Char) (Rest Cur : FString) (hCur : d ∉ Cur) :
    ∀ t ∈ ParseIntoArrayLoop d true Rest Cur, t ≠ [] ∧ d ∉ t := by
  induction Rest generalizing Cur with
  | nil =>
    intro t ht
    cases Cur with
    | nil => simp [ParseIntoArrayLoop] at ht
    | cons a Cur =>
      simp [ParseIntoArrayLoop] at ht
      subst ht
      exact ⟨by simp, hCur⟩
  | cons c Rest ih =>
    intro t ht
    by_cases h : c = d
    · subst h
      cases Cur with
      | nil =>
        simp [ParseIntoArrayLoop] at ht
        exact ih [] (by simp) t ht
      | cons a Cur =>
        simp [ParseIntoArrayLoop] at ht
        rcases ht with ht | ht
        · subst ht
          exact ⟨by simp, hCur⟩
        · exact ih [] (by simp) t ht
    · simp only [ParseIntoArrayLoop, if_neg h] at ht
      refine ih (Cur ++ [c]) ?_ t ht
      simp only [List.mem_append, List.mem_singleton, not_or]
      exact ⟨hCur, fun hdc => h hdc.symm⟩

theorem TrimPrecedingAndTrailing_of_all_whitespace (E : Engine) (InText : FString)
    (h : ∀ c ∈ InText, E.IsWhitespace c = true) : TrimPrecedingAndTrailing E InText = [] := by
  have h1 : InText.dropWhile E.IsWhitespace = [] := by
    rw [List.dropWhile_eq_nil_iff]
    exact h
  simp [TrimPrecedingAndTrailing, h1]

/-! ## Lemmas on the filter -/

theorem MatchTerms_eq (E : Engine) (Text : FString) (Terms : List FString) (b : Bool) :
    MatchTerms E Text Terms b =
      (b && Terms.all fun Term => Contains E Text Term ESearchCase.IgnoreCase) := by
  induction Terms generalizing b with
  | nil => simp [MatchTerms]
  | cons Term Terms ih =>
    cases b
    · simp [MatchTerms]
    · simp [MatchTerms, ih]

theorem FilterLoop_eq (E : Engine) (FilterTerms : List FString)
    (Items Filtered : List FSearchBoxStruct) :
    FilterLoop E FilterTerms Items Filtered =
      Filtered ++ Items.filter (PassesFilter E FilterTerms) := by
  induction Items generalizing Filtered with
  | nil => simp [FilterLoop]
  | cons Item Items ih =>
    have hshow : (if decide (Num FilterTerms > 0) = true then
        MatchTerms E (SearchText Item) FilterTerms true else true) =
        PassesFilter E FilterTerms Item := by
      cases FilterTerms with
      | nil => simp [Num, PassesFilter]
      | cons Term Terms =>
        have : (Num (Term :: Terms) > 0) := by simp [Num]
        simp only [this, decide_True, if_true, MatchTerms_eq, PassesFilter, Bool.true_and]
    simp only [FilterLoop, hshow, ih]
    cases hp : PassesFilter E FilterTerms Item <;> simp [List.filter, hp]

theorem FilterItems_eq_filter (E : Engine) (FilterTerms : List FString)
    (AllItems : List FSearchBoxStruct) :
    FilterItems E FilterTerms AllItems = AllItems.filter (PassesFilter E FilterTerms) := by
  simp [FilterItems, FilterLoop_eq]

theorem PassesFilter_iff (E : Engine) (FilterTerms : List FString) (Item : FSearchBoxStruct) :
    PassesFilter E FilterTerms Item = true ↔
      ∀ Term ∈ FilterTerms, Term.map E.ToUpper <:+: (SearchText Item).map E.ToUpper := by
  simp only [PassesFilter, List.all_eq_true, Contains_ignoreCase_iff]

/-! ## Lemmas on the state transitions -/

theorem MarkActiveSuggestion_of_inRange (s : SFocusSearchBoxMenu)
    (h0 : 0 ≤ s.SuggestionIndex) (h1 : s.SuggestionIndex < Num s.FilteredItems) :
    ∃ Item, s.FilteredItems[s.SuggestionIndex.toNat]? = some Item ∧
      MarkActiveSuggestion s =
        some ({ s with SelectedItems := [Item] },
          [Effect.SetSelection Item, Effect.RequestScrollIntoView Item,
            Effect.FlashTab Item.DockTab]) := by
  have hlt : s.SuggestionIndex.toNat < s.FilteredItems.length := by
    simp only [Num] at h1
    omega
  refine ⟨s.FilteredItems[s.SuggestionIndex.toNat], List.getElem?_eq_getElem hlt, ?_⟩
  simp only [MarkActiveSuggestion, ge_iff_le, h0, if_true, List.getElem?_eq_getElem hlt]

theorem MarkActiveSuggestion_of_negative (s : SFocusSearchBoxMenu) (h : s.SuggestionIndex < 0) :
    MarkActiveSuggestion s = some ({ s with SelectedItems := [] }, [Effect.ClearSelection]) := by
  have : ¬ (0 ≤ s.SuggestionIndex) := by omega
  simp only [MarkActiveSuggestion, ge_iff_le, this, if_false]

theorem Clamp_eq_min (X Max : Int) (hX : 0 ≤ X) : Clamp X 0 Max = min X Max := by
  unfold Clamp
  have h : ¬ X < 0 := by omega
  rw [if_neg h]
  split <;> omega

theorem OnFilterTextChanged_active (E : Engine) (s : SFocusSearchBoxMenu) (InFilterText : FString)
    (h0 : 0 ≤ s.SuggestionIndex)
    (hm : 0 < Num (FilterItems E (FilterTermsOf E InFilterText) s.AllItems)) :
    ∃ Item,
      (FilterItems E (FilterTermsOf E InFilterText) s.AllItems)[
        (min s.SuggestionIndex
          (Num (FilterItems E (FilterTermsOf E InFilterText) s.AllItems) - 1)).toNat]? =
        some Item ∧
      OnFilterTextChanged E s InFilterText =
        some ({ AllItems := s.AllItems,
                FilteredItems := FilterItems E (FilterTermsOf E InFilterText) s.AllItems,
                SuggestionIndex :=
                  min s.SuggestionIndex
                    (Num (FilterItems E (FilterTermsOf E InFilterText) s.AllItems) - 1),
                SelectedItems := [Item] },
          [Effect.RequestListRefresh, Effect.SetSelection Item,
            Effect.RequestScrollIntoView Item, Effect.FlashTab Item.DockTab]) := by
  obtain ⟨Item, hget, hmark⟩ := MarkActiveSuggestion_of_inRange
    { AllItems := s.AllItems,
      FilteredItems := FilterItems E (FilterTermsOf E InFilterText) s.AllItems,
      SuggestionIndex :=
        min s.SuggestionIndex (Num (FilterItems E (FilterTermsOf E InFilterText) s.AllItems) - 1),
      SelectedItems := s.SelectedItems }
    (by simp only; omega) (by simp only; omega)
  refine ⟨Item, hget, ?_⟩
  simp only [OnFilterTextChanged, ge_iff_le, h0, gt_iff_lt, hm, and_self, if_true,
    Clamp_eq_min _ _ h0, hmark]

theorem OnFilterTextChanged_inactive (E : Engine) (s : SFocusSearchBoxMenu)
    (InFilterText : FString)
    (h : ¬ (0 ≤ s.SuggestionIndex ∧
      0 < Num (FilterItems E (FilterTermsOf E InFilterText) s.AllItems))) :
    OnFilterTextChanged E s InFilterText =
      some ({ AllItems := s.AllItems,
              FilteredItems := FilterItems E (FilterTermsOf E InFilterText) s.AllItems,
              SuggestionIndex := INDEX_NONE,
              SelectedItems := s.SelectedItems },
        [Effect.RequestListRefresh]) := by
  simp only [OnFilterTextChanged, ge_iff_le, gt_iff_lt, h, if_false]

theorem OnFilterTextChanged_filtered (E : Engine) (s : SFocusSearchBoxMenu)
    (InFilterText : FString) :
    ∃ s1 Effects, OnFilterTextChanged E s InFilterText = some (s1, Effects) ∧
      s1.AllItems = s.AllItems ∧
      s1.FilteredItems = FilterItems E (FilterTermsOf E InFilterText) s.AllItems := by
  by_cases h : 0 ≤ s.SuggestionIndex ∧
      0 < Num (FilterItems E (FilterTermsOf E InFilterText) s.AllItems)
  · obtain ⟨Item, _, heq⟩ := OnFilterTextChanged_active E s InFilterText h.1 h.2
    exact ⟨_, _, heq, rfl, rfl⟩
  · exact ⟨_, _, OnFilterTextChanged_inactive E s InFilterText h, rfl, rfl⟩

/-! ## Lemmas on the keyboard navigation -/

theorem wrapInt32_of_inRange (x : Int) (h0 : -2147483648 ≤ x) (h1 : x < 2147483648) :
    wrapInt32 x = x := by
  unfold wrapInt32
  omega

theorem wrapped_sum_eq (i n d : Int) (hn0 : 0 < n) (hi : -1 ≤ i)
    (hsum : i + d + n < 2147483648) (hd : d = 1 ∨ d = -1) :
    wrapInt32 (wrapInt32 (i + d) + n) = i + d + n := by
  rw [wrapInt32_of_inRange (i + d) (by omega) (by omega)]
  exact wrapInt32_of_inRange _ (by omega) (by omega)

theorem moved_index_inRange (i n d : Int) (hn0 : 0 < n) (hi : -1 ≤ i)
    (hsum : i + d + n < 2147483648) (hd : d = 1 ∨ d = -1) :
    0 ≤ (wrapInt32 (wrapInt32 (i + d) + n)).tmod n ∧
      (wrapInt32 (wrapInt32 (i + d) + n)).tmod n < n := by
  rw [wrapped_sum_eq i n d hn0 hi hsum hd]
  refine ⟨?_, Int.tmod_lt_of_pos _ hn0⟩
  by_cases h : 0 ≤ i + d + n
  · exact Int.tmod_nonneg _ h
  · have h1 : n = 1 := by omega
    have h2 : i + d + n = -1 := by omega
    rw [h2, h1]
    decide

theorem moved_down_index (i n : Int) (hn0 : 0 < n) (hi : -1 ≤ i)
    (hsum : i + 1 + n < 2147483648) :
    (wrapInt32 (wrapInt32 (i + 1) + n)).tmod n = (i + 1) % n := by
  rw [wrapped_sum_eq i n 1 hn0 hi hsum (Or.inl rfl),
    Int.tmod_eq_emod (by omega) (by omega), Int.add_emod_self]

theorem moved_up_index (n : Int) (hn0 : 0 < n) (hn : n < 2147483648) :
    (wrapInt32 (wrapInt32 (-1 + -1) + n)).tmod n = if n = 1 then 0 else n - 2 := by
  rw [wrapped_sum_eq (-1) n (-1) hn0 (by omega) (by omega) (Or.inr rfl)]
  by_cases h : n = 1
  · subst h
    decide
  · rw [if_neg h, show (-1 + -1 + n : Int) = n - 2 by omega]
    exact Int.tmod_eq_of_lt (by omega) (by omega)

theorem Num_lt_of_length_lt {α : Type} (Array : List α) (B : Nat) (h : Array.length < B) :
    Num Array < (B : Int) := by
  simp only [Num]
  exact_mod_cast h

theorem OnKeyDown_move (s : SFocusSearchBoxMenu) (Key : FKey) (d : Int)
    (hkey : (Key = FKey.Up ∧ d = -1) ∨ (Key = FKey.Down ∧ d = 1))
    (hn : 0 < Num s.FilteredItems) :
    OnKeyDown s Key =
      (MarkActiveSuggestion { s with
        SuggestionIndex :=
          (wrapInt32 (wrapInt32 (s.SuggestionIndex + d) + Num s.FilteredItems)).tmod
            (Num s.FilteredItems) }).map fun r => (r.1, r.2, FReply.Handled) := by
  rcases hkey with ⟨hk, hd⟩ | ⟨hk, hd⟩ <;> subst hk <;> subst hd <;>
    simp only [OnKeyDown, gt_iff_lt, hn, if_true] <;>
    by_cases hnone : s.SuggestionIndex = INDEX_NONE <;>
    simp [hnone] <;>
    split <;> simp_all

theorem OnKeyDown_move_inRange (s : SFocusSearchBoxMenu) (Key : FKey) (d : Int)
    (hkey : (Key = FKey.Up ∧ d = -1) ∨ (Key = FKey.Down ∧ d = 1))
    (hn0 : 0 < Num s.FilteredItems) (hi : -1 ≤ s.SuggestionIndex)
    (hsum : s.SuggestionIndex + d + Num s.FilteredItems < 2147483648) :
    ∃ Item,
      OnKeyDown s Key =
        some ({ AllItems := s.AllItems,
                FilteredItems := s.FilteredItems,
                SuggestionIndex :=
                  (wrapInt32 (wrapInt32 (s.SuggestionIndex + d) + Num s.FilteredItems)).tmod
                    (Num s.FilteredItems),
                SelectedItems := [Item] },
          [Effect.SetSelection Item, Effect.RequestScrollIntoView Item,
            Effect.FlashTab Item.DockTab], FReply.Handled) := by
  have hd : d = 1 ∨ d = -1 := by
    rcases hkey with ⟨_, h⟩ | ⟨_, h⟩
    · exact Or.inr h
    · exact Or.inl h
  have hr := moved_index_inRange s.SuggestionIndex (Num s.FilteredItems) d hn0 hi hsum hd
  obtain ⟨Item, _, hmark⟩ := MarkActiveSuggestion_of_inRange
    { AllItems := s.AllItems,
      FilteredItems := s.FilteredItems,
      SuggestionIndex :=
        (wrapInt32 (wrapInt32 (s.SuggestionIndex + d) + Num s.FilteredItems)).tmod
          (Num s.FilteredItems),
      SelectedItems := s.SelectedItems } hr.1 hr.2
  refine ⟨Item, ?_⟩
  rw [OnKeyDown_move s Key d hkey hn0, hmark]
  rfl

theorem OnKeyDown_of_empty (s : SFocusSearchBoxMenu) (Key : FKey)
    (hkey : Key = FKey.Up ∨ Key = FKey.Down ∨ Key = FKey.Other) (hF : s.FilteredItems = []) :
    OnKeyDown s Key = some (s, [], FReply.Unhandled) := by
  rcases hkey with hk | hk | hk <;> subst hk <;> simp [OnKeyDown, Num, hF]

theorem OnKeyDown_Other (s : SFocusSearchBoxMenu) :
    OnKeyDown s FKey.Other = some (s, [], FReply.Unhandled) := by
  simp [OnKeyDown]

theorem OnKeyDown_Enter_state (s : SFocusSearchBoxMenu) :
    ∃ Effects Reply, OnKeyDown s FKey.Enter = some (s, Effects, Reply) := by
  cases hsel : s.SelectedItems with
  | cons Item Rest => exact ⟨SelectItem Item, FReply.Handled, by simp [OnKeyDown, hsel]⟩
  | nil =>
    cases hF : s.FilteredItems with
    | nil => exact ⟨[], FReply.Unhandled, by simp [OnKeyDown, hsel, SelectFirstItem, Num, hF]⟩
    | cons Item Rest =>
      refine ⟨SelectItem Item, FReply.Handled, ?_⟩
      have hpos : (0 : Int) < (Rest.length : Int) + 1 := by omega
      simp [OnKeyDown, hsel, SelectFirstItem, Num, hF, hpos]

theorem pressKey_Down_inRange (k : Nat) (s : SFocusSearchBoxMenu)
    (hn : Num s.FilteredItems < 1073741824)
    (hi : 0 ≤ s.SuggestionIndex) (hi2 : s.SuggestionIndex < Num s.FilteredItems) :
    ∃ s1, pressKey FKey.Down k s = some s1 ∧ s1.AllItems = s.AllItems ∧
      s1.FilteredItems = s.FilteredItems ∧
      s1.SuggestionIndex = (s.SuggestionIndex + k) % Num s.FilteredItems := by
  induction k generalizing s with
  | zero =>
    refine ⟨s, rfl, rfl, rfl, ?_⟩
    simp only [Nat.cast_zero, add_zero]
    exact (Int.emod_eq_of_lt hi hi2).symm
  | succ k ih =>
    have hn0 : 0 < Num s.FilteredItems := by omega
    obtain ⟨Item, hstep⟩ := OnKeyDown_move_inRange s FKey.Down 1 (Or.inr ⟨rfl, rfl⟩) hn0
      (by omega) (by omega)
    rw [moved_down_index _ _ hn0 (by omega) (by omega)] at hstep
    have hlt : (s.SuggestionIndex + 1) % Num s.FilteredItems < Num s.FilteredItems :=
      Int.emod_lt_of_pos _ hn0
    have hge : 0 ≤ (s.SuggestionIndex + 1) % Num s.FilteredItems :=
      Int.emod_nonneg _ (by omega)
    obtain ⟨s1, hrun, hA, hF, hidx⟩ := ih
      { AllItems := s.AllItems,
        FilteredItems := s.FilteredItems,
        SuggestionIndex := (s.SuggestionIndex + 1) % Num s.FilteredItems,
        SelectedItems := [Item] } hn hge hlt
    refine ⟨s1, ?_, hA, hF, ?_⟩
    · simp only [pressKey, hstep, Option.some_bind]
      exact hrun
    · rw [hidx]
      simp only [Int.emod_add_emod, Nat.cast_succ]
      congr 1
      omega

theorem step_preserves (E : Engine) (s : SFocusSearchBoxMenu) (e : Event)
    (hA : s.AllItems.length < 2 ^ 30) (hF : s.FilteredItems.length ≤ s.AllItems.length)
    (hc : s.SuggestionIndex = INDEX_NONE ∨
      (0 ≤ s.SuggestionIndex ∧ s.SuggestionIndex < Num s.FilteredItems)) :
    ∃ s1, step E s e = some s1 ∧ s1.AllItems = s.AllItems ∧
      s1.FilteredItems.length ≤ s1.AllItems.length ∧
      (s1.SuggestionIndex = INDEX_NONE ∨
        (0 ≤ s1.SuggestionIndex ∧ s1.SuggestionIndex < Num s1.FilteredItems)) := by
  have hA1 : s.AllItems.length < 1073741824 := by simpa using hA
  have hi : -1 ≤ s.SuggestionIndex ∧ s.SuggestionIndex < max 1 (Num s.FilteredItems) := by
    rcases hc with h | h
    · simp only [INDEX_NONE] at h
      rw [h]
      exact ⟨le_refl _, by simp⟩
    · exact ⟨by omega, lt_of_lt_of_le h.2 (le_max_right _ _)⟩
  cases e with
  | KeyDown Key =>
    by_cases hmove : (Key = FKey.Up ∨ Key = FKey.Down) ∧ 0 < Num s.FilteredItems
    · obtain ⟨hk, hn0⟩ := hmove
      have hmax : max 1 (Num s.FilteredItems) = Num s.FilteredItems := max_eq_right (by omega)
      rw [hmax] at hi
      have hlen : Num s.FilteredItems < 1073741824 := by
        simp only [Num]
        omega
      have key : ∀ d : Int, (Key = FKey.Up ∧ d = -1) ∨ (Key = FKey.Down ∧ d = 1) →
          ∃ s1, step E s (Event.KeyDown Key) = some s1 ∧ s1.AllItems = s.AllItems ∧
            s1.FilteredItems.length ≤ s1.AllItems.length ∧
            (s1.SuggestionIndex = INDEX_NONE ∨
              (0 ≤ s1.SuggestionIndex ∧ s1.SuggestionIndex < Num s1.FilteredItems)) := by
        intro d hkd
        have hd : d = 1 ∨ d = -1 := by
          rcases hkd with ⟨_, h⟩ | ⟨_, h⟩
          · exact Or.inr h
          · exact Or.inl h
        have hsum : s.SuggestionIndex + d + Num s.FilteredItems < 2147483648 := by omega
        obtain ⟨Item, hstep⟩ := OnKeyDown_move_inRange s Key d hkd hn0 hi.1 hsum
        have hr := moved_index_inRange s.SuggestionIndex (Num s.FilteredItems) d hn0 hi.1
          hsum hd
        refine ⟨_, by simp only [step, hstep, Option.map_some']; rfl, ?_, ?_, ?_⟩
        · rfl
        · exact hF
        · exact Or.inr hr
      rcases hk with hk | hk
      · exact key (-1) (Or.inl ⟨hk, rfl⟩)
      · exact key 1 (Or.inr ⟨hk, rfl⟩)
    · have hsame : ∃ Effects Reply, OnKeyDown s Key = some (s, Effects, Reply) := by
        cases Key with
        | Escape => exact ⟨[Effect.DismissMenu], FReply.Handled, by simp [OnKeyDown]⟩
        | Enter => exact OnKeyDown_Enter_state s
        | Other => exact ⟨[], FReply.Unhandled, OnKeyDown_Other s⟩
        | Up =>
          have h0 : ¬ (0 < Num s.FilteredItems) := fun h => hmove ⟨Or.inl rfl, h⟩
          exact ⟨[], FReply.Unhandled, by simp [OnKeyDown, h0]⟩
        | Down =>
          have h0 : ¬ (0 < Num s.FilteredItems) := fun h => hmove ⟨Or.inr rfl, h⟩
          exact ⟨[], FReply.Unhandled, by simp [OnKeyDown, h0]⟩
      obtain ⟨Effects, Reply, hstep⟩ := hsame
      exact ⟨s, by simp only [step, hstep, Option.map_some'], rfl, hF, hc⟩
  | FilterTextChanged InFilterText =>
    have hlen : (FilterItems E (FilterTermsOf E InFilterText) s.AllItems).length ≤
        s.AllItems.length := by
      rw [FilterItems_eq_filter]
      exact List.length_filter_le _ _
    by_cases h : 0 ≤ s.SuggestionIndex ∧
        0 < Num (FilterItems E (FilterTermsOf E InFilterText) s.AllItems)
    · obtain ⟨Item, _, heq⟩ := OnFilterTextChanged_active E s InFilterText h.1 h.2
      have h1 := h.1
      have h2 := h.2
      refine ⟨_, by simp only [step, heq, Option.map_some']; rfl, ?_, ?_, ?_⟩
      · rfl
      · exact hlen
      · refine Or.inr ⟨le_min h1 (by omega), ?_⟩
        show min s.SuggestionIndex
            (Num (FilterItems E (FilterTermsOf E InFilterText) s.AllItems) - 1) <
          Num (FilterItems E (FilterTermsOf E InFilterText) s.AllItems)
        exact lt_of_le_of_lt (min_le_right _ _) (by omega)
    · have heq := OnFilterTextChanged_inactive E s InFilterText h
      refine ⟨_, by simp only [step, heq, Option.map_some']; rfl, ?_, ?_, ?_⟩
      · rfl
      · exact hlen
      · exact Or.inl rfl

theorem run_preserves (E : Engine) (Events : List Event) (s : SFocusSearchBoxMenu)
    (hA : s.AllItems.length < 2 ^ 30) (hF : s.FilteredItems.length ≤ s.AllItems.length)
    (hc : s.SuggestionIndex = INDEX_NONE ∨
      (0 ≤ s.SuggestionIndex ∧ s.SuggestionIndex < Num s.FilteredItems)) :
    ∃ s1, run E s Events = some s1 ∧
      (s1.SuggestionIndex = INDEX_NONE ∨
        (0 ≤ s1.SuggestionIndex ∧ s1.SuggestionIndex < Num s1.FilteredItems)) := by
  induction Events generalizing s with
  | nil => exact ⟨s, rfl, hc⟩
  | cons e Events ih =>
    obtain ⟨s1, hstep, hA1, hF1, hc1⟩ := step_preserves E s e hA hF hc
    obtain ⟨s2, hrun, hc2⟩ := ih s1 (by rw [hA1]; exact hA) hF1 hc1
    exact ⟨s2, by simp only [run, hstep, Option.some_bind]; exact hrun, hc2⟩

/-! ## The text filter -/

/-- C1 (amended). After `OnFilterTextChanged`, `FilteredItems` is exactly the
items of `AllItems`, in `AllItems` order with nothing added or dropped, whose
search text `ToString() + " " + GetTabLabel()` contains every term of the filter
text as a substring when both are compared ignoring case (through `ToUpper`);
`AllItems` is untouched, and with no term `FilteredItems` equals `AllItems`. -/
theorem OnFilterTextChanged_keeps_matching_items (E : Engine) (s : SFocusSearchBoxMenu)
    (InFilterText : FString) :
    ∃ s1 Effects, OnFilterTextChanged E s InFilterText = some (s1, Effects) ∧
      s1.AllItems = s.AllItems ∧
      s1.FilteredItems =
        s.AllItems.filter (fun Item => decide (∀ Term ∈ FilterTermsOf E InFilterText,
          Term.map E.ToUpper <:+: (SearchText Item).map E.ToUpper)) ∧
      (FilterTermsOf E InFilterText = [] → s1.FilteredItems = s.AllItems) := by
  obtain ⟨s1, Effects, h, hall, hfil⟩ := OnFilterTextChanged_filtered E s InFilterText
  refine ⟨s1, Effects, h, hall, ?_, ?_⟩
  · rw [hfil, FilterItems_eq_filter]
    congr 1
    funext Item
    rw [Bool.eq_iff_iff, PassesFilter_iff]
    simp
  · intro hnil
    rw [hfil, FilterItems_eq_filter, hnil]
    simp [PassesFilter]

/-- C1, witness: items `Find`/`Graph` and `Search`/`Details`; the filter text `ea`
keeps only the second item, and a blank filter text keeps both. -/
theorem OnFilterTextChanged_keeps_matching_items_witness :
    (∃ s1 Effects,
      OnFilterTextChanged asciiEngine
        (menuOf [mkItem 0 "Find" "Graph", mkItem 1 "Search" "Details"] INDEX_NONE)
        "ea".toList = some (s1, Effects) ∧
      s1.FilteredItems = [mkItem 1 "Search" "Details"]) ∧
    (∃ s1 Effects,
      OnFilterTextChanged asciiEngine
        (menuOf [mkItem 0 "Find" "Graph", mkItem 1 "Search" "Details"] INDEX_NONE)
        "  ".toList = some (s1, Effects) ∧
      s1.FilteredItems = [mkItem 0 "Find" "Graph", mkItem 1 "Search" "Details"]) := by
  constructor
  · obtain ⟨s1, Effects, h, _, hfil, _⟩ := OnFilterTextChanged_keeps_matching_items asciiEngine
      (menuOf [mkItem 0 "Find" "Graph", mkItem 1 "Search" "Details"] INDEX_NONE) "ea".toList
    refine ⟨s1, Effects, h, ?_⟩
    rw [hfil]
    decide
  · obtain ⟨s1, Effects, h, _, _, hnil⟩ := OnFilterTextChanged_keeps_matching_items asciiEngine
      (menuOf [mkItem 0 "Find" "Graph", mkItem 1 "Search" "Details"] INDEX_NONE) "  ".toList
    exact ⟨s1, Effects, h, hnil (by decide)⟩

/-- C1, counterexample. The filter text `find` keeps the item `Find`/`Graph`,
although `find` is not a substring of `Find Graph` with case preserved. -/
theorem OnFilterTextChanged_case_counterexample :
    (OnFilterTextChanged asciiEngine
        (menuOf [mkItem 0 "Find" "Graph", mkItem 1 "Search" "Details"] INDEX_NONE)
        "find".toList).map (fun r => r.1.FilteredItems) = some [mkItem 0 "Find" "Graph"] ∧
      FilterTermsOf asciiEngine "find".toList = ["find".toList] ∧
      SearchText (mkItem 0 "Find" "Graph") = "Find Graph".toList ∧
      ¬ ("find".toList <:+: "Find Graph".toList) := by
  decide

/-- C10. Filtering is idempotent: the filter of `OnFilterTextChanged` with terms
`T`, applied to what filtering `I` by `T` produced, yields that same list. -/
theorem FilterItems_idempotent (E : Engine) (T : List FString) (I : List FSearchBoxStruct) :
    FilterItems E T (FilterItems E T I) = FilterItems E T I := by
  simp only [FilterItems_eq_filter, List.filter_filter, Bool.and_self]

/-- C6 (amended). The terms `OnFilterTextChanged` filters with are the pieces of
the trimmed filter text between space characters, in order, empty pieces
dropped: no term is empty, no term contains a space, and a text of white space
only yields no term. -/
theorem FilterTermsOf_splits_on_space (E : Engine) (InFilterText : FString) :
    FilterTermsOf E InFilterText =
        ((TrimPrecedingAndTrailing E InFilterText).splitOn ' ').filter (fun t => !t.isEmpty) ∧
      (∀ t ∈ FilterTermsOf E InFilterText, t ≠ [] ∧ ' ' ∉ t) ∧
      ((∀ c ∈ InFilterText, E.IsWhitespace c = true) → FilterTermsOf E InFilterText = []) := by
  refine ⟨?_, ?_, ?_⟩
  · unfold FilterTermsOf ParseIntoArray
    cases hT : TrimPrecedingAndTrailing E InFilterText with
    | nil => simp [List.splitOn, List.filter]
    | cons c Rest =>
      rw [ParseIntoArrayLoop_eq_splitOnP]
      simp only [List.isEmpty_cons, Bool.false_eq_true, if_false, List.nil_append, List.splitOn]
      congr 1
      cases List.splitOnP (fun x => x == ' ') (c :: Rest) <;> rfl
  · intro t ht
    unfold FilterTermsOf ParseIntoArray at ht
    split at ht
    · simp at ht
    · exact ParseIntoArrayLoop_mem ' ' _ [] (by simp) t ht
  · intro h
    simp [FilterTermsOf, TrimPrecedingAndTrailing_of_all_whitespace E InFilterText h,
      ParseIntoArray]

/-- C6, witness: the text of three spaces is white space only and yields no term. -/
theorem FilterTermsOf_splits_on_space_witness :
    (∀ c ∈ "   ".toList, asciiEngine.IsWhitespace c = true) ∧
      FilterTermsOf asciiEngine "   ".toList = [] :=
  ⟨by decide, (FilterTermsOf_splits_on_space asciiEngine "   ".toList).2.2 (by decide)⟩

/-- C6, counterexample. A tab between two letters is white space but not the
delimiter: the text `a<TAB>b` yields the single term `a<TAB>b`, which contains
the tab, where the white space free runs are `a` and `b`. -/
theorem FilterTermsOf_tab_counterexample :
    FilterTermsOf asciiEngine ['a', Char.ofNat 9, 'b'] = [['a', Char.ofNat 9, 'b']] ∧
      asciiEngine.IsWhitespace (Char.ofNat 9) = true ∧
      Char.ofNat 9 ∈ ['a', Char.ofNat 9, 'b'] := by
  decide

/-- C7. After `OnFilterTextChanged`, with `m` the length of the new filtered
list: an active cursor `i ≥ 0` becomes `min i (m - 1)` when `m > 0` and
`INDEX_NONE` when `m = 0`; the cursor `INDEX_NONE` stays `INDEX_NONE`. -/
theorem OnFilterTextChanged_cursor (E : Engine) (s : SFocusSearchBoxMenu)
    (InFilterText : FString) :
    ∃ s1 Effects, OnFilterTextChanged E s InFilterText = some (s1, Effects) ∧
      s1.FilteredItems = FilterItems E (FilterTermsOf E InFilterText) s.AllItems ∧
      (0 ≤ s.SuggestionIndex → 0 < Num s1.FilteredItems →
        s1.SuggestionIndex = min s.SuggestionIndex (Num s1.FilteredItems - 1) ∧
        0 ≤ s1.SuggestionIndex ∧ s1.SuggestionIndex ≤ Num s1.FilteredItems - 1) ∧
      (0 ≤ s.SuggestionIndex → Num s1.FilteredItems = 0 → s1.SuggestionIndex = INDEX_NONE) ∧
      (s.SuggestionIndex = INDEX_NONE → s1.SuggestionIndex = INDEX_NONE) := by
  by_cases h : 0 ≤ s.SuggestionIndex ∧
      0 < Num (FilterItems E (FilterTermsOf E InFilterText) s.AllItems)
  · obtain ⟨Item, _, heq⟩ := OnFilterTextChanged_active E s InFilterText h.1 h.2
    refine ⟨_, _, heq, rfl, ?_, ?_, ?_⟩
    · intro h0 hm
      simp only at hm
      exact ⟨rfl, le_min h0 (by omega), min_le_right _ _⟩
    · intro _ hm
      simp only at hm
      omega
    · intro hnone
      simp only [INDEX_NONE] at hnone
      omega
  · refine ⟨_, _, OnFilterTextChanged_inactive E s InFilterText h, rfl, ?_, ?_, ?_⟩
    · intro h0 hm
      exact absurd ⟨h0, hm⟩ h
    · intro _ _
      rfl
    · intro _
      rfl

/-- C7, witness: with the cursor on index 2 of three items, the filter text `ea`
leaves one item and the cursor on index 0; the filter text `zzz` leaves none and
clears the cursor; and a cleared cursor stays cleared. -/
theorem OnFilterTextChanged_cursor_witness :
    (∃ s1 Effects,
      OnFilterTextChanged asciiEngine (menuOf sampleItems 2) "ea".toList = some (s1, Effects) ∧
        s1.SuggestionIndex = 0) ∧
    (∃ s1 Effects,
      OnFilterTextChanged asciiEngine (menuOf sampleItems 2) "zzz".toList = some (s1, Effects) ∧
        s1.SuggestionIndex = INDEX_NONE) ∧
    (∃ s1 Effects,
      OnFilterTextChanged asciiEngine (menuOf sampleItems INDEX_NONE) "i".toList =
          some (s1, Effects) ∧
        s1.SuggestionIndex = INDEX_NONE) := by
  refine ⟨?_, ?_, ?_⟩
  · obtain ⟨s1, Effects, h, hfil, hclamp, _, _⟩ :=
      OnFilterTextChanged_cursor asciiEngine (menuOf sampleItems 2) "ea".toList
    have hF : s1.FilteredItems = [mkItem 1 "Search" "Details"] := by
      rw [hfil]
      decide
    have h1 := (hclamp (by decide) (by rw [hF]; decide)).1
    rw [hF] at h1
    exact ⟨s1, Effects, h, h1.trans (by decide)⟩
  · obtain ⟨s1, Effects, h, hfil, _, hclear, _⟩ :=
      OnFilterTextChanged_cursor asciiEngine (menuOf sampleItems 2) "zzz".toList
    have hF : s1.FilteredItems = [] := by
      rw [hfil]
      decide
    exact ⟨s1, Effects, h, hclear (by decide) (by rw [hF]; decide)⟩
  · obtain ⟨s1, Effects, h, _, _, _, hnone⟩ :=
      OnFilterTextChanged_cursor asciiEngine (menuOf sampleItems INDEX_NONE) "i".toList
    exact ⟨s1, Effects, h, hnone rfl⟩

/-! ## The keyboard navigation -/

/-- C2. From the state `Construct` leaves, for a window with fewer than `2 ^ 30`
items, every sequence of `OnKeyDown` and `OnFilterTextChanged` calls runs without
an index out of range and ends in a state whose `SuggestionIndex` is `INDEX_NONE`
or satisfies `0 ≤ SuggestionIndex < FilteredItems.Num()`; `MarkActiveSuggestion`
succeeds in that state. -/
theorem run_cursor_in_bounds (E : Engine) (DockTabs : List DockTabSnapshot)
    (Events : List Event) (hlen : (ScanItems DockTabs).length < 2 ^ 30) :
    ∃ s, run E (Construct DockTabs) Events = some s ∧
      (s.SuggestionIndex = INDEX_NONE ∨
        (0 ≤ s.SuggestionIndex ∧ s.SuggestionIndex < Num s.FilteredItems)) ∧
      ∃ r, MarkActiveSuggestion s = some r := by
  obtain ⟨s, hrun, hc⟩ := run_preserves E Events (Construct DockTabs) hlen (le_refl _)
    (Or.inl rfl)
  refine ⟨s, hrun, hc, ?_⟩
  rcases hc with h | h
  · exact ⟨_, MarkActiveSuggestion_of_negative s (by rw [h]; decide)⟩
  · obtain ⟨Item, _, hmark⟩ := MarkActiveSuggestion_of_inRange s h.1 h.2
    exact ⟨_, hmark⟩

/-- C2, witness: the sample window, with Down, the filter text `ea`, Up and Enter. -/
theorem run_cursor_in_bounds_witness :
    (ScanItems sampleTabs).length < 2 ^ 30 ∧
      ∃ s, run asciiEngine (Construct sampleTabs)
          [Event.KeyDown FKey.Down, Event.FilterTextChanged "ea".toList,
            Event.KeyDown FKey.Up, Event.KeyDown FKey.Enter] = some s ∧
        (s.SuggestionIndex = INDEX_NONE ∨
          (0 ≤ s.SuggestionIndex ∧ s.SuggestionIndex < Num s.FilteredItems)) ∧
        ∃ r, MarkActiveSuggestion s = some r :=
  ⟨by decide, run_cursor_in_bounds asciiEngine sampleTabs _ (by decide)⟩

/-- C3 (amended). For a filtered list of length `n` with `0 < n < 2 ^ 30` and a
cursor on an item, `0 ≤ SuggestionIndex < n`, pressing Down exactly `n` times
with the filtered list unchanged returns `SuggestionIndex` to its value before
the first press. -/
theorem pressKey_Down_full_cycle (s : SFocusSearchBoxMenu)
    (hn : s.FilteredItems.length < 2 ^ 30)
    (hi : 0 ≤ s.SuggestionIndex) (hi2 : s.SuggestionIndex < Num s.FilteredItems) :
    ∃ s1, pressKey FKey.Down s.FilteredItems.length s = some s1 ∧
      s1.SuggestionIndex = s.SuggestionIndex ∧ s1.FilteredItems = s.FilteredItems ∧
      s1.AllItems = s.AllItems := by
  have hn1 : Num s.FilteredItems < 1073741824 := by
    simpa using Num_lt_of_length_lt s.FilteredItems _ hn
  obtain ⟨s1, hrun, hA, hF, hidx⟩ :=
    pressKey_Down_inRange s.FilteredItems.length s hn1 hi hi2
  refine ⟨s1, hrun, ?_, hF, hA⟩
  rw [hidx]
  show (s.SuggestionIndex + Num s.FilteredItems) % Num s.FilteredItems = s.SuggestionIndex
  rw [Int.add_emod_self]
  exact Int.emod_eq_of_lt hi hi2

/-- C3, witness: three items, cursor on index 1, three presses of Down. -/
theorem pressKey_Down_full_cycle_witness :
    ∃ s1, pressKey FKey.Down 3 (menuOf sampleItems 1) = some s1 ∧
      s1.SuggestionIndex = 1 ∧ s1.FilteredItems = sampleItems ∧ s1.AllItems = sampleItems :=
  pressKey_Down_full_cycle (menuOf sampleItems 1) (by decide) (by decide) (by decide)

/-- C3, counterexample. From no selection, three presses of Down on three items
leave the cursor on index 2, not on `INDEX_NONE`. -/
theorem pressKey_Down_from_none_counterexample :
    (pressKey FKey.Down 3 (menuOf sampleItems INDEX_NONE)).map (fun s => s.SuggestionIndex) =
        some 2 ∧
      (2 : Int) ≠ INDEX_NONE := by
  decide

/-- C4 (amended). For a non-empty filtered list of length `n` (below `2 ^ 31`) and
`SuggestionIndex = INDEX_NONE`, `OnKeyDown` with Up or Down puts the sentinel
itself into the sum: Down selects `(-1 + 1 + n) % n = 0`, Up selects
`(-1 - 1 + n) % n`, which is `n - 2` for `n ≥ 2` and `0` for `n = 1`; the item at
that index is highlighted and the event is reported handled. -/
theorem OnKeyDown_from_none (s : SFocusSearchBoxMenu) (hnone : s.SuggestionIndex = INDEX_NONE)
    (hn0 : s.FilteredItems ≠ []) (hn : s.FilteredItems.length < 2 ^ 31) :
    (∃ Item, s.FilteredItems[0]? = some Item ∧
      OnKeyDown s FKey.Down =
        some ({ AllItems := s.AllItems, FilteredItems := s.FilteredItems,
                SuggestionIndex := 0, SelectedItems := [Item] },
          [Effect.SetSelection Item, Effect.RequestScrollIntoView Item,
            Effect.FlashTab Item.DockTab], FReply.Handled)) ∧
    (∃ Item,
      s.FilteredItems[if s.FilteredItems.length = 1 then 0 else s.FilteredItems.length - 2]? =
        some Item ∧
      OnKeyDown s FKey.Up =
        some ({ AllItems := s.AllItems, FilteredItems := s.FilteredItems,
                SuggestionIndex :=
                  if Num s.FilteredItems = 1 then 0 else Num s.FilteredItems - 2,
                SelectedItems := [Item] },
          [Effect.SetSelection Item, Effect.RequestScrollIntoView Item,
            Effect.FlashTab Item.DockTab], FReply.Handled)) := by
  have hpos : 0 < s.FilteredItems.length := List.length_pos.mpr hn0
  have hN0 : 0 < Num s.FilteredItems := by
    simp only [Num]
    omega
  have hN : Num s.FilteredItems < 2147483648 := by
    simpa using Num_lt_of_length_lt s.FilteredItems _ hn
  simp only [INDEX_NONE] at hnone
  constructor
  · have hidx : (wrapInt32 (wrapInt32 (s.SuggestionIndex + 1) + Num s.FilteredItems)).tmod
        (Num s.FilteredItems) = 0 := by
      rw [moved_down_index _ _ hN0 (by omega) (by omega), hnone]
      simp
    have hm := OnKeyDown_move s FKey.Down 1 (Or.inr ⟨rfl, rfl⟩) hN0
    rw [hidx] at hm
    obtain ⟨Item, hget, hmark⟩ := MarkActiveSuggestion_of_inRange
      { AllItems := s.AllItems, FilteredItems := s.FilteredItems, SuggestionIndex := 0,
        SelectedItems := s.SelectedItems } (le_refl _) hN0
    refine ⟨Item, hget, ?_⟩
    rw [hm, hmark]
    rfl
  · have hidx : (wrapInt32 (wrapInt32 (s.SuggestionIndex + -1) + Num s.FilteredItems)).tmod
        (Num s.FilteredItems) =
        if Num s.FilteredItems = 1 then 0 else Num s.FilteredItems - 2 := by
      rw [hnone]
      exact moved_up_index _ hN0 hN
    have hm := OnKeyDown_move s FKey.Up (-1) (Or.inl ⟨rfl, rfl⟩) hN0
    rw [hidx] at hm
    have hr0 : 0 ≤ (if Num s.FilteredItems = 1 then 0 else Num s.FilteredItems - 2) := by
      split <;> omega
    have hr1 : (if Num s.FilteredItems = 1 then 0 else Num s.FilteredItems - 2) <
        Num s.FilteredItems := by
      split <;> omega
    obtain ⟨Item, hget, hmark⟩ := MarkActiveSuggestion_of_inRange
      { AllItems := s.AllItems, FilteredItems := s.FilteredItems,
        SuggestionIndex := if Num s.FilteredItems = 1 then 0 else Num s.FilteredItems - 2,
        SelectedItems := s.SelectedItems } hr0 hr1
    refine ⟨Item, ?_, ?_⟩
    · rw [← hget]
      congr 1
      simp only [Num]
      split <;> split <;> omega
    · rw [hm, hmark]
      rfl

/-- C4, witness: three items and no selection; Down selects index 0 and Up
selects index 1, both handled. -/
theorem OnKeyDown_from_none_witness :
    (∃ Item, sampleItems[0]? = some Item ∧
      OnKeyDown (menuOf sampleItems INDEX_NONE) FKey.Down =
        some ({ AllItems := sampleItems, FilteredItems := sampleItems,
                SuggestionIndex := 0, SelectedItems := [Item] },
          [Effect.SetSelection Item, Effect.RequestScrollIntoView Item,
            Effect.FlashTab Item.DockTab], FReply.Handled)) ∧
    (∃ Item, sampleItems[1]? = some Item ∧
      OnKeyDown (menuOf sampleItems INDEX_NONE) FKey.Up =
        some ({ AllItems := sampleItems, FilteredItems := sampleItems,
                SuggestionIndex := 1, SelectedItems := [Item] },
          [Effect.SetSelection Item, Effect.RequestScrollIntoView Item,
            Effect.FlashTab Item.DockTab], FReply.Handled)) :=
  OnKeyDown_from_none (menuOf sampleItems INDEX_NONE) rfl (by decide) (by decide)

/-- C4, counterexample. With three items and no selection, Down selects index 0
where `(0 + 1 + 3) % 3` is 1, and Up selects index 1 where `(0 - 1 + 3) % 3` is 2. -/
theorem OnKeyDown_from_none_counterexample :
    (OnKeyDown (menuOf sampleItems INDEX_NONE) FKey.Down).map
        (fun r => (r.1.SuggestionIndex, r.2.2)) = some (0, FReply.Handled) ∧
      (0 + 1 + 3 : Int).tmod 3 = 1 ∧
      (OnKeyDown (menuOf sampleItems INDEX_NONE) FKey.Up).map
        (fun r => (r.1.SuggestionIndex, r.2.2)) = some (1, FReply.Handled) ∧
      (0 - 1 + 3 : Int).tmod 3 = 2 := by
  decide

/-- C5. For a filtered list of length `n` with `0 < n < 2 ^ 30` and every
`k ≥ 1`, pressing Down `k` times from `INDEX_NONE` leaves the cursor on index
`(k - 1) mod n`, the filtered list unchanged. -/
theorem pressKey_Down_from_none (s : SFocusSearchBoxMenu) (k : Nat)
    (hnone : s.SuggestionIndex = INDEX_NONE) (hn0 : s.FilteredItems ≠ [])
    (hn : s.FilteredItems.length < 2 ^ 30) (hk : 1 ≤ k) :
    ∃ s1, pressKey FKey.Down k s = some s1 ∧
      s1.SuggestionIndex = ((k : Int) - 1) % Num s.FilteredItems ∧
      s1.FilteredItems = s.FilteredItems ∧ s1.AllItems = s.AllItems := by
  have hpos : 0 < s.FilteredItems.length := List.length_pos.mpr hn0
  have hN0 : 0 < Num s.FilteredItems := by
    simp only [Num]
    omega
  have hN : Num s.FilteredItems < 1073741824 := by
    simpa using Num_lt_of_length_lt s.FilteredItems _ hn
  simp only [INDEX_NONE] at hnone
  obtain ⟨j, rfl⟩ : ∃ j, k = j + 1 := ⟨k - 1, by omega⟩
  obtain ⟨Item, hstep⟩ := OnKeyDown_move_inRange s FKey.Down 1 (Or.inr ⟨rfl, rfl⟩) hN0
    (by omega) (by omega)
  rw [moved_down_index _ _ hN0 (by omega) (by omega)] at hstep
  have h0 : (s.SuggestionIndex + 1) % Num s.FilteredItems = 0 := by
    rw [hnone]
    simp
  rw [h0] at hstep
  obtain ⟨s1, hrun, hA, hF, hidx⟩ := pressKey_Down_inRange j
    { AllItems := s.AllItems, FilteredItems := s.FilteredItems, SuggestionIndex := 0,
      SelectedItems := [Item] } hN (le_refl _) hN0
  refine ⟨s1, ?_, ?_, hF, hA⟩
  · simp only [pressKey, hstep, Option.some_bind]
    exact hrun
  · rw [hidx]
    show (0 + (j : Int)) % Num s.FilteredItems = _
    congr 1
    push_cast
    omega

/-- C5, witness: three items; one press gives index 0, three presses give
index 2 and the fourth press wraps to index 0. -/
theorem pressKey_Down_from_none_witness :
    (∃ s1, pressKey FKey.Down 1 (menuOf sampleItems INDEX_NONE) = some s1 ∧
      s1.SuggestionIndex = 0) ∧
    (∃ s1, pressKey FKey.Down 3 (menuOf sampleItems INDEX_NONE) = some s1 ∧
      s1.SuggestionIndex = 2) ∧
    (∃ s1, pressKey FKey.Down 4 (menuOf sampleItems INDEX_NONE) = some s1 ∧
      s1.SuggestionIndex = 0) := by
  refine ⟨?_, ?_, ?_⟩
  · obtain ⟨s1, h, hidx, _, _⟩ := pressKey_Down_from_none (menuOf sampleItems INDEX_NONE) 1
      rfl (by decide) (by decide) (by decide)
    exact ⟨s1, h, hidx.trans (by decide)⟩
  · obtain ⟨s1, h, hidx, _, _⟩ := pressKey_Down_from_none (menuOf sampleItems INDEX_NONE) 3
      rfl (by decide) (by decide) (by decide)
    exact ⟨s1, h, hidx.trans (by decide)⟩
  · obtain ⟨s1, h, hidx, _, _⟩ := pressKey_Down_from_none (menuOf sampleItems INDEX_NONE) 4
      rfl (by decide) (by decide) (by decide)
    exact ⟨s1, h, hidx.trans (by decide)⟩

/-- C8. When the list view holds no selection, `OnKeyDown` with Enter commits the
first item of a non-empty filtered list (the menu is dismissed, then, if the
item's widget is valid, keyboard focus goes to it and its tab is flashed) and
reports handled, with no member changed; on an empty filtered list it issues
no call at all, changes no member and reports unhandled. -/
theorem OnKeyDown_Enter_without_selection (s : SFocusSearchBoxMenu)
    (hsel : s.SelectedItems = []) :
    (∀ Item Rest, s.FilteredItems = Item :: Rest →
      OnKeyDown s FKey.Enter =
        some (s,
          Effect.DismissMenu ::
            (if Item.WidgetIsValid then
              [Effect.SetKeyboardFocus Item.Widget, Effect.FlashTab Item.DockTab]
            else []),
          FReply.Handled)) ∧
    (s.FilteredItems = [] → OnKeyDown s FKey.Enter = some (s, [], FReply.Unhandled)) := by
  constructor
  · intro Item Rest hF
    have hpos : (0 : Int) < (Rest.length : Int) + 1 := by omega
    simp [OnKeyDown, hsel, SelectFirstItem, SelectItem, Num, hF, hpos]
  · intro hF
    simp [OnKeyDown, hsel, SelectFirstItem, Num, hF]

/-- C8, witness: Enter on the three sample items commits the first one; Enter on
an empty filtered list does nothing. -/
theorem OnKeyDown_Enter_without_selection_witness :
    OnKeyDown (menuOf sampleItems INDEX_NONE) FKey.Enter =
        some (menuOf sampleItems INDEX_NONE,
          [Effect.DismissMenu, Effect.SetKeyboardFocus 0, Effect.FlashTab 0],
          FReply.Handled) ∧
      OnKeyDown (menuOf [] INDEX_NONE) FKey.Enter =
        some (menuOf [] INDEX_NONE, [], FReply.Unhandled) :=
  ⟨(OnKeyDown_Enter_without_selection (menuOf sampleItems INDEX_NONE) rfl).1 _ _ rfl,
    (OnKeyDown_Enter_without_selection (menuOf [] INDEX_NONE) rfl).2 rfl⟩

/-- C9. With an empty filtered list, `OnKeyDown` with Up or Down returns the
state unchanged (`SuggestionIndex`, `FilteredItems`, `AllItems` and the list view
selection), issues no call to the host and reports unhandled. -/
theorem OnKeyDown_Up_Down_on_empty (s : SFocusSearchBoxMenu) (Key : FKey)
    (hkey : Key = FKey.Up ∨ Key = FKey.Down) (hF : s.FilteredItems = []) :
    OnKeyDown s Key = some (s, [], FReply.Unhandled) := by
  rcases hkey with hk | hk
  · exact OnKeyDown_of_empty s Key (Or.inl hk) hF
  · exact OnKeyDown_of_empty s Key (Or.inr (Or.inl hk)) hF

/-- C9, witness: all three sample items filtered out, a stale list view selection
still present; Up changes nothing. -/
theorem OnKeyDown_Up_Down_on_empty_witness :
    OnKeyDown
        { AllItems := sampleItems, FilteredItems := [], SuggestionIndex := INDEX_NONE,
          SelectedItems := [mkItem 0 "Find" "Graph"] } FKey.Up =
      some ({ AllItems := sampleItems, FilteredItems := [], SuggestionIndex := INDEX_NONE,
              SelectedItems := [mkItem 0 "Find" "Graph"] }, [], FReply.Unhandled) :=
  OnKeyDown_Up_Down_on_empty _ FKey.Up (Or.inl rfl) rfl

end FocusSearchBoxMenu
